import Mathlib

/-!
Verification development for the idempotent partition-recompute pipeline in
src/airflow/dags/gold_user_activity_daily.py.

The pipeline is a strictly sequential chain of tasks over a ClickHouse store:
validate_source_data, delete_existing_partition (with a bounded mutation wait),
compute_aggregations (INSERT ... SELECT with GROUP BY), optimize_table
(best-effort OPTIMIZE ... PARTITION ... FINAL), validate_results, and
generate_report.

We embed the store as lists of rows, the SQL statements as pure functions
over those lists, and the task chain as a function returning
`Except PipelineFailure PipelineOutcome`.  Conventions of the embedding:

* Timestamps are naturals, in milliseconds since the epoch;
  `toDate ts = ts / 86400000` embeds `toDate(event_timestamp)` and a calendar
  date is the resulting day number.  `monthOf` embeds the `'%Y%m'` partition
  expression via the standard civil-from-days conversion.
* `uniq(...)` is embedded as an exact distinct count (`List.toFinset.card`);
  ClickHouse's estimator is exact in spirit and the code treats it as exact.
* `LEFT JOIN analytics.silver_users` follows ClickHouse defaults
  (join_use_nulls = 0): an unmatched event is paired with a single
  default-valued dimension row (empty strings, zeros); a user with several
  physical dimension versions matches every one of them, multiplying the
  joined tuples, exactly as the SQL join does.
* `argMax(x, v)` over a group is embedded as a left fold keeping the row with
  the strictly largest `v` seen so far (ClickHouse leaves ties unspecified;
  the fold keeps the earliest maximal row, one legal refinement).
* The `ALTER TABLE ... DELETE` mutation is modelled at its point of
  completion; the in-flight visibility of the mutation is exposed separately
  through the `pending` sequence polled by the wait loop.
* Reads with `FINAL` (the deduplicated read path of the ReplacingMergeTree
  destination) collapse the physical rows of a (date, user) key to the row
  with the largest `_version` stamp; `visibleRow` below is that read path.
-/

set_option maxHeartbeats 1000000

namespace GoldPipeline

/-- One row of `analytics.silver_events`: the source event stream. -/
structure Event where
  event_timestamp : Nat
  user_id : Nat
  event_type : String
  deriving DecidableEq, Repr

/-- One physical row of `analytics.silver_users`: the versioned user-dimension
snapshot (`_version` is the version stamp used by `argMax`). -/
structure UserDim where
  user_id : Nat
  full_name : String
  email : String
  is_deleted : Nat
  version : Nat
  deriving DecidableEq, Repr

/-- One physical row of `analytics.gold_user_activity`, the destination table.
`version` embeds the `_version` column and `computed_at` the `_computed_at`
column. -/
structure GoldRow where
  activity_date : Nat
  user_id : Nat
  event_count : Nat
  last_event_timestamp : Nat
  page_view_count : Nat
  click_count : Nat
  purchase_count : Nat
  search_count : Nat
  add_to_cart_count : Nat
  login_count : Nat
  user_full_name : String
  user_email : String
  user_is_active : Nat
  computed_at : Nat
  version : Nat
  deriving DecidableEq, Repr

/-- The analytical store: the two silver sources and the gold destination. -/
structure Store where
  silver_events : List Event
  silver_users : List UserDim
  gold_user_activity : List GoldRow
  deriving Repr

/-- `toDate(event_timestamp)`: milliseconds to day number. -/
def toDate (ts : Nat) : Nat := ts / 86400000

/-- The `'%Y%m'` partition expression of `optimize_table`, as the number
`year * 100 + month`, computed from the day number by the standard
civil-from-days conversion (all intermediate values are nonnegative). -/
def monthOf (d : Nat) : Nat :=
  let z := d + 719468
  let era := z / 146097
  let doe := z % 146097
  let yoe := (doe - doe / 1460 + doe / 36524 - doe / 146096) / 365
  let y := yoe + era * 400
  let doy := doe - (365 * yoe + yoe / 4 - yoe / 100)
  let mp := (5 * doy + 2) / 153
  let m := if mp < 10 then mp + 3 else mp - 9
  (if m ≤ 2 then y + 1 else y) * 100 + m

/-- The events of the target date:
`FROM silver_events WHERE toDate(event_timestamp) = target_date`. -/
def eventsOn (st : Store) (d : Nat) : List Event :=
  st.silver_events.filter (fun e => toDate e.event_timestamp = d)

/-- The distinct users with an event on the target date, as a list in
first-grouping order (the `GROUP BY se.user_id` grouping keys). -/
def usersList (st : Store) (d : Nat) : List Nat :=
  ((eventsOn st d).map (fun e => e.user_id)).dedup

/-- The distinct users with an event on the target date, as a set. -/
def usersFinset (st : Store) (d : Nat) : Finset Nat :=
  ((eventsOn st d).map (fun e => e.user_id)).toFinset

/-- `uniq(user_id)` over the date's events: the source distinct-user count. -/
def sourceUsers (st : Store) (d : Nat) : Nat :=
  (usersFinset st d).card

/-- The target-date events of one user (one `GROUP BY` group, before the
join). -/
def userEvents (st : Store) (d : Nat) (u : Nat) : List Event :=
  st.silver_events.filter (fun e => toDate e.event_timestamp = d ∧ e.user_id = u)

/-- The physical dimension rows joined to user `u`
(`LEFT JOIN silver_users su ON se.user_id = su.user_id`). -/
def dimRows (st : Store) (u : Nat) : List UserDim :=
  st.silver_users.filter (fun s => s.user_id = u)

/-- The default-valued dimension row a LEFT JOIN produces for an unmatched
event under join_use_nulls = 0. -/
def defaultDim : UserDim :=
  { user_id := 0, full_name := "", email := "", is_deleted := 0, version := 0 }

/-- The joined tuples of one group: each event of the user on the date,
paired with every matching dimension row (or with the default row when the
user has none). -/
def joinedFor (st : Store) (d : Nat) (u : Nat) : List (Event × UserDim) :=
  (userEvents st d u).flatMap (fun e =>
    match dimRows st u with
    | [] => [(e, defaultDim)]
    | ds => ds.map (fun s => (e, s)))

/-- `argMax(su.<field>, su._version)` over a group: the dimension row of the
joined tuple with the largest version (earliest maximal row on ties). -/
def argMaxDim : List (Event × UserDim) → UserDim
  | [] => defaultDim
  | p :: ps => ps.foldl (fun b q => if b.version < q.2.version then q.2 else b) p.2

/-- The six event categories broken out by `countIf` in the aggregation. -/
def sixTypes : List String :=
  ["page_view", "click", "purchase", "search", "add_to_cart", "login"]

/-- One destination row of the `INSERT ... SELECT`: the aggregate of one
(date, user) group, stamped with the computation timestamp `t`
(`now64(3)` and `toUnixTimestamp64Milli(now64(3))`). -/
def mkRow (st : Store) (d : Nat) (u : Nat) (t : Nat) : GoldRow :=
  let j := joinedFor st d u
  let dim := argMaxDim j
  { activity_date := d
  , user_id := u
  , event_count := j.length
  , last_event_timestamp := ((j.map (fun p => p.1.event_timestamp)).max?).getD 0
  , page_view_count := j.countP (fun p => p.1.event_type = "page_view")
  , click_count := j.countP (fun p => p.1.event_type = "click")
  , purchase_count := j.countP (fun p => p.1.event_type = "purchase")
  , search_count := j.countP (fun p => p.1.event_type = "search")
  , add_to_cart_count := j.countP (fun p => p.1.event_type = "add_to_cart")
  , login_count := j.countP (fun p => p.1.event_type = "login")
  , user_full_name := dim.full_name
  , user_email := dim.email
  , user_is_active := if dim.is_deleted = 0 then 1 else 0
  , computed_at := t
  , version := t }

/-- The full row set produced by the aggregation query for the target date:
one row per grouping key, `HAVING event_count > 0`. -/
def computeRows (st : Store) (d : Nat) (t : Nat) : List GoldRow :=
  ((usersList st d).map (fun u => mkRow st d u t)).filter (fun r => r.event_count > 0)

/-- Physical destination rows of a date (`WHERE activity_date = d`, no
FINAL). -/
def rowsAt (rows : List GoldRow) (d : Nat) : List GoldRow :=
  rows.filter (fun r => r.activity_date = d)

/-- The row a merge (or a FINAL read) keeps among physical duplicates: the
one with the largest version stamp (earliest on ties). -/
def pickMaxVersion : List GoldRow → Option GoldRow
  | [] => none
  | r :: rs => some (rs.foldl (fun b x => if b.version < x.version then x else b) r)

/-- The deduplicated read path: the logically visible row of a
(date, user) key. -/
def visibleRow (rows : List GoldRow) (d : Nat) (u : Nat) : Option GoldRow :=
  pickMaxVersion (rows.filter (fun r => r.activity_date = d ∧ r.user_id = u))

/-- The distinct users having any physical destination row on the date (the
keys visible to a FINAL read of the date). -/
def usersAt (rows : List GoldRow) (d : Nat) : Finset Nat :=
  ((rowsAt rows d).map (fun r => r.user_id)).toFinset

/-- `count()` over `gold_user_activity FINAL WHERE activity_date = d`: one
per logically visible (date, user) key. -/
def destRowsFinal (rows : List GoldRow) (d : Nat) : Nat :=
  (usersAt rows d).card

/-- `sum(event_count)` over `gold_user_activity FINAL WHERE activity_date
= d`. -/
def destEventsFinal (rows : List GoldRow) (d : Nat) : Nat :=
  Finset.sum (usersAt rows d) (fun u => ((visibleRow rows d u).map (fun r => r.event_count)).getD 0)

/-- The six per-category counts of a destination row, as one tuple. -/
def catCounts (r : GoldRow) : Nat × Nat × Nat × Nat × Nat × Nat :=
  (r.page_view_count, r.click_count, r.purchase_count, r.search_count,
   r.add_to_cart_count, r.login_count)

/-- The per-user observable aggregate of the deduplicated read path: the
visible row's per-category counts. -/
def perUserCatTotals (rows : List GoldRow) (d : Nat) (u : Nat) :
    Option (Nat × Nat × Nat × Nat × Nat × Nat) :=
  (visibleRow rows d u).map catCounts

/-- The sum of the six per-category counts of a destination row. -/
def sixCatSum (r : GoldRow) : Nat :=
  r.page_view_count + r.click_count + r.purchase_count + r.search_count +
    r.add_to_cart_count + r.login_count

/-- Every failure the DAG raises is an `AirflowException` carrying only a
message: connection errors, query errors and the reconciliation mismatch all
use the same exception class. -/
inductive PipelineFailure where
  | airflowException (msg : String)
  deriving DecidableEq, Repr

/-- The exception class of a raised failure - what a caller can dispatch on
without reading the message text. -/
inductive FailureKind where
  | airflowException
  deriving DecidableEq, Repr

/-- The kind (exception class) of a failure. -/
def PipelineFailure.kind : PipelineFailure → FailureKind
  | .airflowException _ => .airflowException

/-- The message of a failure. -/
def PipelineFailure.msg : PipelineFailure → String
  | .airflowException m => m

/-- The failure raised by `get_clickhouse_client` on a connection error. -/
def connectionFailure (e : String) : PipelineFailure :=
  .airflowException ("ClickHouse connection failed: " ++ e)

/-- The failure raised by `execute_query` / `execute_query_with_result` on a
ClickHouseError. -/
def queryFailure (e : String) : PipelineFailure :=
  .airflowException ("Query execution failed: " ++ e)

/-- The failure raised by `validate_results` on a reconciliation mismatch. -/
def reconciliationFailure (source_users dest_rows : Nat) : PipelineFailure :=
  .airflowException ("Validation failed: Source had " ++ toString source_users ++
    " users but destination has " ++ toString dest_rows ++ " rows")

/-- The `validation_result` record pushed by `validate_source_data`. -/
structure SourceValidationResult where
  target_date : Nat
  event_count : Nat
  unique_users : Nat
  min_timestamp : Option Nat
  max_timestamp : Option Nat
  total_users_in_system : Nat
  has_data : Bool
  deriving DecidableEq, Repr

/-- `validate_source_data`: probe the source for the date; never mutates, an
empty date only warns. -/
def validate_source_data (st : Store) (d : Nat) : SourceValidationResult :=
  let evs := eventsOn st d
  { target_date := d
  , event_count := evs.length
  , unique_users := sourceUsers st d
  , min_timestamp := (evs.map (fun e => e.event_timestamp)).min?
  , max_timestamp := (evs.map (fun e => e.event_timestamp)).max?
  , total_users_in_system := st.silver_users.length
  , has_data := evs.length > 0 }

/-- `delete_existing_partition` up to the wait loop: count the existing rows
of the date and, when nonzero, issue the scoped
`ALTER TABLE ... DELETE WHERE activity_date = d`; returns the store and the
`deleted_rows` value pushed to XCom. -/
def delete_existing_partition (st : Store) (d : Nat) : Store × Nat :=
  let existing := (rowsAt st.gold_user_activity d).length
  if existing > 0 then
    ({ st with gold_user_activity :=
        st.gold_user_activity.filter (fun r => ¬ r.activity_date = d) }, existing)
  else
    (st, existing)

/-- The outcome of the bounded mutation wait: queries issued, seconds slept,
and whether the pending count was observed to reach zero. -/
structure WaitResult where
  polls : Nat
  sleeps : Nat
  completed : Bool
  deriving DecidableEq, Repr

/-- The wait loop body: poll `system.mutations` at index `i`, break when no
mutation is pending, else sleep one second and continue while fuel lasts. -/
def mutationWaitGo (pending : Nat → Nat) : Nat → Nat → WaitResult
  | _, 0 => ⟨0, 0, false⟩
  | i, fuel + 1 =>
    if pending i = 0 then ⟨1, 0, true⟩
    else
      let w := mutationWaitGo pending (i + 1) fuel
      ⟨w.polls + 1, w.sleeps + 1, w.completed⟩

/-- The `for _ in range(30)` wait loop of `delete_existing_partition`,
driven by the store's pending-mutation counts. -/
def mutationWait (pending : Nat → Nat) : WaitResult :=
  mutationWaitGo pending 0 30

/-- `compute_aggregations`'s `INSERT INTO gold_user_activity SELECT ...`:
append the freshly computed generation of rows for the date. -/
def insert_aggregations (st : Store) (d : Nat) (t : Nat) : Store :=
  { st with gold_user_activity := st.gold_user_activity ++ computeRows st d t }

/-- The `aggregation_result` record pushed by `compute_aggregations`
(the verify query: plain counts over the date, no FINAL). -/
structure AggregationResult where
  target_date : Nat
  rows_inserted : Nat
  total_events_aggregated : Nat
  unique_users : Nat
  deriving DecidableEq, Repr

/-- The verify query of `compute_aggregations`. -/
def aggregation_result (st : Store) (d : Nat) : AggregationResult :=
  let rows := rowsAt st.gold_user_activity d
  { target_date := d
  , rows_inserted := rows.length
  , total_events_aggregated := (rows.map (fun r => r.event_count)).sum
  , unique_users := ((rows.map (fun r => r.user_id)).toFinset).card }

/-- The key of the destination's deduplicated read path. -/
def rowKey (r : GoldRow) : Nat × Nat := (r.activity_date, r.user_id)

/-- The distinct keys of a physical row set, in first-grouping order. -/
def keysAt (rows : List GoldRow) : List (Nat × Nat) :=
  (rows.map rowKey).dedup

/-- The physical row a merge keeps for one key. -/
def chooseRow (rows : List GoldRow) (k : Nat × Nat) : Option GoldRow :=
  pickMaxVersion (rows.filter (fun r => rowKey r = k))

/-- `OPTIMIZE TABLE ... PARTITION '<YYYYMM>' FINAL`: the physical rows of the
named month partition are merged down to one row per (date, user) key; other
partitions are untouched. -/
def optimizePartition (m : Nat) (rows : List GoldRow) : List GoldRow :=
  let part := rows.filter (fun r => monthOf r.activity_date = m)
  rows.filter (fun r => ¬ monthOf r.activity_date = m) ++
    (keysAt part).filterMap (chooseRow part)

/-- `optimize_table`: best-effort compaction of the month partition of the
target date; a failing request (`optimizeFails`) is caught, logged and
ignored, leaving the store unchanged. -/
def optimize_table (st : Store) (d : Nat) (optimizeFails : Bool) : Store :=
  if optimizeFails then st
  else { st with gold_user_activity := optimizePartition (monthOf d) st.gold_user_activity }

/-- The reconciliation invariant checked by `validate_results`. -/
def reconInvariant (source_users dest_rows : Nat) : Prop :=
  (source_users = 0 ∧ dest_rows = 0) ∨ (source_users > 0 ∧ dest_rows > 0)

instance (s r : Nat) : Decidable (reconInvariant s r) := by
  unfold reconInvariant
  infer_instance

/-- The `final_validation` record pushed by `validate_results`. -/
structure FinalValidation where
  target_date : Nat
  source_unique_users : Nat
  destination_rows : Nat
  destination_total_events : Nat
  validation_passed : Bool
  deriving DecidableEq, Repr

/-- The record `validate_results` computes before deciding to raise. -/
def finalValidation (st : Store) (d : Nat) : FinalValidation :=
  { target_date := d
  , source_unique_users := sourceUsers st d
  , destination_rows := destRowsFinal st.gold_user_activity d
  , destination_total_events := destEventsFinal st.gold_user_activity d
  , validation_passed :=
      decide (reconInvariant (sourceUsers st d) (destRowsFinal st.gold_user_activity d)) }

/-- `validate_results`: recompute the source distinct-user count, read the
destination through FINAL, and raise an AirflowException unless the
reconciliation invariant holds. -/
def validate_results (st : Store) (d : Nat) : Except PipelineFailure FinalValidation :=
  let fv := finalValidation st d
  if fv.validation_passed then .ok fv
  else .error (reconciliationFailure fv.source_unique_users fv.destination_rows)

/-- The run context read back by `generate_report`: each upstream XCom record
is present or absent independently. -/
structure RunContext where
  validation_result : Option SourceValidationResult
  deleted_rows : Option Nat
  aggregation_result : Option AggregationResult
  final_validation : Option FinalValidation
  deriving DecidableEq, Repr

/-- Rendering of a numeric field of a possibly-missing record:
`record.get(key, 'N/A')` after `record = pull(...) or ... `. -/
def natField : Option Nat → String
  | some n => toString n
  | none => "N/A"

/-- Rendering of an optional timestamp inside the source-validation record:
a missing record renders N/A, a present record with a null value renders the
Python `None`. -/
def tsField (sv : Option SourceValidationResult) (f : SourceValidationResult → Option Nat) :
    String :=
  match sv with
  | none => "N/A"
  | some v =>
    match f v with
    | some ts => toString ts
    | none => "None"

/-- Python's rendering of a boolean. -/
def pyBool (b : Bool) : String := if b then "True" else "False"

/-- The horizontal rule of the report: eighty repetitions of the equals
sign. -/
def hrule : String :=
  String.mk (List.replicate 80 ('='))

/-- The section rule of the report: eighty repetitions of the hyphen. -/
def srule : String :=
  String.mk (List.replicate 80 ('-'))

/-- The lines of the execution report assembled by `generate_report`,
mirroring the f-string template; note `deleted = pull(...) or 0` renders a
missing deleted-rows record as `0`, while the three dict-valued records
render missing fields via `.get(key, 'N/A')`. -/
def reportLines (execution_date run_id : String) (ctx : RunContext) : List String :=
  [ ""
  , hrule
  , "GOLD USER ACTIVITY DAILY - EXECUTION REPORT"
  , hrule
  , "Execution Date: " ++ execution_date
  , "Run ID: " ++ run_id
  , srule
  , "SOURCE DATA VALIDATION:"
  , "  - Events Found: " ++ natField (ctx.validation_result.map (fun v => v.event_count))
  , "  - Unique Users: " ++ natField (ctx.validation_result.map (fun v => v.unique_users))
  , "  - Time Range: " ++ tsField ctx.validation_result (fun v => v.min_timestamp) ++
      " to " ++ tsField ctx.validation_result (fun v => v.max_timestamp)
  , srule
  , "PARTITION CLEANUP:"
  , "  - Rows Deleted: " ++ toString (ctx.deleted_rows.getD 0)
  , srule
  , "AGGREGATION RESULTS:"
  , "  - Rows Inserted: " ++ natField (ctx.aggregation_result.map (fun a => a.rows_inserted))
  , "  - Total Events Aggregated: " ++
      natField (ctx.aggregation_result.map (fun a => a.total_events_aggregated))
  , "  - Unique Users: " ++ natField (ctx.aggregation_result.map (fun a => a.unique_users))
  , srule
  , "FINAL VALIDATION:"
  , "  - Validation Passed: " ++
      (match ctx.final_validation with
       | some fv => pyBool fv.validation_passed
       | none => "N/A")
  , hrule
  , "    " ]

/-- `generate_report`: pure assembly of the report string from the run
context. -/
def generate_report (execution_date run_id : String) (ctx : RunContext) : String :=
  String.intercalate "\n" (reportLines execution_date run_id ctx)

/-- Everything a successful run leaves behind: the final store and the
records every task pushed. -/
structure PipelineOutcome where
  store : Store
  source_validation : SourceValidationResult
  deleted_rows : Nat
  wait : WaitResult
  aggregation : AggregationResult
  validation : FinalValidation
  report : String
  deriving Repr

/-- The whole DAG run for one partition date: validate_source_data,
delete_existing_partition (with the bounded wait when a delete was issued),
compute_aggregations, optimize_table, validate_results, generate_report.
`t` is the computation timestamp of the run, `pending` the pending-mutation
counts the wait loop would observe, `optimizeFails` whether the best-effort
OPTIMIZE request errors. -/
def runPipeline (st : Store) (d : Nat) (t : Nat) (run_id : String)
    (pending : Nat → Nat) (optimizeFails : Bool) :
    Except PipelineFailure PipelineOutcome :=
  let sv := validate_source_data st d
  let del := delete_existing_partition st d
  let w := if del.2 > 0 then mutationWait pending else ⟨0, 0, true⟩
  let st2 := insert_aggregations del.1 d t
  let agg := aggregation_result st2 d
  let st3 := optimize_table st2 d optimizeFails
  match validate_results st3 d with
  | .error e => .error e
  | .ok fv =>
      .ok { store := st3
          , source_validation := sv
          , deleted_rows := del.2
          , wait := w
          , aggregation := agg
          , validation := fv
          , report := generate_report (toString d) run_id
              { validation_result := some sv
              , deleted_rows := some del.2
              , aggregation_result := some agg
              , final_validation := some fv } }

/-- The store transformation a run performs (delete, insert, best-effort
optimize). -/
def runStore (st : Store) (d : Nat) (t : Nat) (optimizeFails : Bool) : Store :=
  optimize_table (insert_aggregations (delete_existing_partition st d).1 d t) d optimizeFails

/-- The store transformation of delete followed by insert (the two mutations
scoped to the partition date). -/
def runStoreNoOpt (st : Store) (d : Nat) (t : Nat) : Store :=
  insert_aggregations (delete_existing_partition st d).1 d t

/-- The outcome a run produces (spelled out step by step, for reasoning about
`runPipeline`). -/
def pipelineOutcome (st : Store) (d t : Nat) (run_id : String) (pending : Nat → Nat)
    (f : Bool) : PipelineOutcome :=
  { store := runStore st d t f
  , source_validation := validate_source_data st d
  , deleted_rows := (delete_existing_partition st d).2
  , wait := if (delete_existing_partition st d).2 > 0 then mutationWait pending else ⟨0, 0, true⟩
  , aggregation := aggregation_result (runStoreNoOpt st d t) d
  , validation := finalValidation (runStore st d t f) d
  , report := generate_report (toString d) run_id
      { validation_result := some (validate_source_data st d)
      , deleted_rows := some (delete_existing_partition st d).2
      , aggregation_result := some (aggregation_result (runStoreNoOpt st d t) d)
      , final_validation := some (finalValidation (runStore st d t f) d) } }

/-! ### Concrete stores used to instantiate the theorems -/

/-- A store whose single event for day 0 has a type outside the six broken-out
categories. -/
def exStoreUnknownType : Store :=
  { silver_events := [⟨5, 1, "logout"⟩]
  , silver_users := []
  , gold_user_activity := [] }

/-- A store with one user, three events of broken-out types on day 0, and one
dimension row for the user. -/
def exStoreThreeEvents : Store :=
  { silver_events := [⟨1, 1, "page_view"⟩, ⟨2, 1, "page_view"⟩, ⟨3, 1, "click"⟩]
  , silver_users := [⟨1, "Ann", "ann at example", 0, 5⟩]
  , gold_user_activity := [] }

/-- A store with one login event on day 0 and no dimension rows. -/
def exStoreNoDim : Store :=
  { silver_events := [⟨7, 1, "login"⟩]
  , silver_users := []
  , gold_user_activity := [] }

/-- A stale destination row for day 0, user 1. -/
def exOldRow : GoldRow :=
  { activity_date := 0, user_id := 1, event_count := 3, last_event_timestamp := 10
  , page_view_count := 3, click_count := 0, purchase_count := 0, search_count := 0
  , add_to_cart_count := 0, login_count := 0, user_full_name := "a", user_email := "a"
  , user_is_active := 1, computed_at := 1, version := 1 }

/-- A second, newer physical version of the same stale destination row. -/
def exOldRow2 : GoldRow :=
  { exOldRow with computed_at := 2, version := 2 }

/-- A store whose destination holds two physical versions of a day-0 row while
the source has one day-1 event: day 0 and day 1 lie in the same calendar
month (197001). -/
def exStoreTwoDates : Store :=
  { silver_events := [⟨86400005, 2, "click"⟩]
  , silver_users := []
  , gold_user_activity := [exOldRow, exOldRow2] }

/-- A pending-mutation sequence that reports drained after two busy polls. -/
def exPending : Nat → Nat := fun j => if j < 2 then 1 else 0

/-- A pending-mutation sequence that never drains. -/
def exPendingStuck : Nat → Nat := fun _ => 1

/-- A run context in which every upstream record is missing. -/
def exCtxNone : RunContext :=
  { validation_result := none, deleted_rows := none
  , aggregation_result := none, final_validation := none }

/-! ### Basic facts about the embedded operations -/

@[simp] lemma mkRow_user_id (st : Store) (d u t : Nat) : (mkRow st d u t).user_id = u := rfl

@[simp] lemma mkRow_activity_date (st : Store) (d u t : Nat) :
    (mkRow st d u t).activity_date = d := rfl

@[simp] lemma mkRow_version (st : Store) (d u t : Nat) : (mkRow st d u t).version = t := rfl

@[simp] lemma mkRow_computed_at (st : Store) (d u t : Nat) : (mkRow st d u t).computed_at = t := rfl

@[simp] lemma mkRow_event_count (st : Store) (d u t : Nat) :
    (mkRow st d u t).event_count = (joinedFor st d u).length := rfl

lemma toFinset_dedup_list {α : Type _} [DecidableEq α] (l : List α) :
    l.dedup.toFinset = l.toFinset := by
  ext a
  simp [List.mem_toFinset, List.mem_dedup]

lemma mem_usersList {st : Store} {d u : Nat} :
    u ∈ usersList st d ↔ ∃ e ∈ eventsOn st d, e.user_id = u := by
  simp [usersList, List.mem_dedup, List.mem_map]

lemma usersList_nodup (st : Store) (d : Nat) : (usersList st d).Nodup :=
  List.nodup_dedup _

lemma usersList_toFinset (st : Store) (d : Nat) :
    (usersList st d).toFinset = usersFinset st d :=
  toFinset_dedup_list _

lemma mem_userEvents {st : Store} {d u : Nat} {e : Event} :
    e ∈ userEvents st d u ↔ e ∈ st.silver_events ∧ toDate e.event_timestamp = d ∧ e.user_id = u := by
  simp [userEvents, List.mem_filter]

lemma joinedFor_ne_nil {st : Store} {d u : Nat} (h : u ∈ usersList st d) :
    joinedFor st d u ≠ [] := by
  rcases mem_usersList.mp h with ⟨e, he, heu⟩
  have hev : e ∈ userEvents st d u := by
    rcases List.mem_filter.mp he with ⟨hmem, hdate⟩
    rw [mem_userEvents]
    refine ⟨hmem, ?_, heu⟩
    simpa using hdate
  cases hds : dimRows st u with
  | nil =>
    have : (e, defaultDim) ∈ joinedFor st d u := by
      rw [joinedFor, List.mem_flatMap]
      exact ⟨e, hev, by rw [hds]; simp⟩
    exact List.ne_nil_of_mem this
  | cons s ss =>
    have : (e, s) ∈ joinedFor st d u := by
      rw [joinedFor, List.mem_flatMap]
      refine ⟨e, hev, ?_⟩
      rw [hds]
      simp
    exact List.ne_nil_of_mem this

lemma computeRows_eq_map (st : Store) (d t : Nat) :
    computeRows st d t = (usersList st d).map (fun u => mkRow st d u t) := by
  apply List.filter_eq_self.mpr
  intro r hr
  rcases List.mem_map.mp hr with ⟨u, hu, rfl⟩
  simp only [mkRow_event_count]
  have := joinedFor_ne_nil hu
  simp [List.length_pos, this]

lemma mem_computeRows {st : Store} {d t : Nat} {r : GoldRow} :
    r ∈ computeRows st d t ↔ ∃ u ∈ usersList st d, r = mkRow st d u t := by
  rw [computeRows_eq_map]
  simp [List.mem_map, eq_comm]

lemma computeRows_date {st : Store} {d t : Nat} {r : GoldRow} (h : r ∈ computeRows st d t) :
    r.activity_date = d := by
  rcases mem_computeRows.mp h with ⟨u, _, rfl⟩
  simp

/-! ### The steps only touch the fields they are supposed to touch -/

lemma delete_fst (st : Store) (d : Nat) :
    (delete_existing_partition st d).1 =
      { st with gold_user_activity :=
          st.gold_user_activity.filter (fun r => ¬ r.activity_date = d) } := by
  unfold delete_existing_partition
  by_cases h : 0 < (rowsAt st.gold_user_activity d).length
  · simp only [if_pos h]
  · simp only [if_neg h]
    have hnil : rowsAt st.gold_user_activity d = [] := by
      cases hc : rowsAt st.gold_user_activity d with
      | nil => rfl
      | cons a l => rw [hc] at h; simp at h
    have hall : ∀ a ∈ st.gold_user_activity, ¬ a.activity_date = d := by
      intro a ha had
      have : a ∈ rowsAt st.gold_user_activity d := by
        simp [rowsAt, List.mem_filter, ha, had]
      rw [hnil] at this
      simp at this
    have : st.gold_user_activity.filter (fun r => ¬ r.activity_date = d) =
        st.gold_user_activity := by
      apply List.filter_eq_self.mpr
      intro a ha
      simpa using hall a ha
    cases st
    simp only at this ⊢
    rw [this]

lemma delete_snd (st : Store) (d : Nat) :
    (delete_existing_partition st d).2 = (rowsAt st.gold_user_activity d).length := by
  unfold delete_existing_partition
  by_cases h : 0 < (rowsAt st.gold_user_activity d).length
  · simp only [if_pos h]
  · simp only [if_neg h]

lemma computeRows_gold_irrel (st : Store) (g : List GoldRow) (d t : Nat) :
    computeRows { st with gold_user_activity := g } d t = computeRows st d t := by
  cases st; rfl

lemma usersList_gold_irrel (st : Store) (g : List GoldRow) (d : Nat) :
    usersList { st with gold_user_activity := g } d = usersList st d := by
  cases st; rfl

lemma mkRow_gold_irrel (st : Store) (g : List GoldRow) (d u t : Nat) :
    mkRow { st with gold_user_activity := g } d u t = mkRow st d u t := by
  cases st; rfl

lemma gold_runNoOpt (st : Store) (d t : Nat) :
    (runStoreNoOpt st d t).gold_user_activity =
      st.gold_user_activity.filter (fun r => ¬ r.activity_date = d) ++ computeRows st d t := by
  unfold runStoreNoOpt insert_aggregations
  rw [delete_fst]
  simp only
  rw [computeRows_gold_irrel]

lemma silver_events_runNoOpt (st : Store) (d t : Nat) :
    (runStoreNoOpt st d t).silver_events = st.silver_events := by
  unfold runStoreNoOpt insert_aggregations
  rw [delete_fst]

lemma silver_users_runNoOpt (st : Store) (d t : Nat) :
    (runStoreNoOpt st d t).silver_users = st.silver_users := by
  unfold runStoreNoOpt insert_aggregations
  rw [delete_fst]

lemma silver_events_runStore (st : Store) (d t : Nat) (f : Bool) :
    (runStore st d t f).silver_events = st.silver_events := by
  unfold runStore optimize_table
  split
  · exact silver_events_runNoOpt st d t
  · simpa using silver_events_runNoOpt st d t

lemma silver_users_runStore (st : Store) (d t : Nat) (f : Bool) :
    (runStore st d t f).silver_users = st.silver_users := by
  unfold runStore optimize_table
  split
  · exact silver_users_runNoOpt st d t
  · simpa using silver_users_runNoOpt st d t

lemma usersList_congr {st1 st2 : Store} (h : st1.silver_events = st2.silver_events) (d : Nat) :
    usersList st1 d = usersList st2 d := by
  cases st1; cases st2; cases h; rfl

lemma sourceUsers_congr {st1 st2 : Store} (h : st1.silver_events = st2.silver_events) (d : Nat) :
    sourceUsers st1 d = sourceUsers st2 d := by
  cases st1; cases st2; cases h; rfl

lemma mkRow_congr {st1 st2 : Store} (he : st1.silver_events = st2.silver_events)
    (hu : st1.silver_users = st2.silver_users) (d u t : Nat) :
    mkRow st1 d u t = mkRow st2 d u t := by
  cases st1; cases st2; cases he; cases hu; rfl

lemma computeRows_congr {st1 st2 : Store} (he : st1.silver_events = st2.silver_events)
    (hu : st1.silver_users = st2.silver_users) (d t : Nat) :
    computeRows st1 d t = computeRows st2 d t := by
  cases st1; cases st2; cases he; cases hu; rfl

/-! ### The deduplicated read path -/

lemma foldl_pickStep_mem (b : GoldRow) (l : List GoldRow) :
    l.foldl (fun b x => if b.version < x.version then x else b) b ∈ b :: l := by
  induction l generalizing b with
  | nil => simp
  | cons x xs ih =>
    simp only [List.foldl_cons]
    rcases List.mem_cons.mp (ih (if b.version < x.version then x else b)) with h | h
    · rw [h]
      by_cases hbx : b.version < x.version
      · simp [hbx]
      · simp [hbx]
    · exact List.mem_cons_of_mem _ (List.mem_cons_of_mem _ h)

lemma pickMaxVersion_mem {l : List GoldRow} {r : GoldRow} (h : pickMaxVersion l = some r) :
    r ∈ l := by
  cases l with
  | nil => simp [pickMaxVersion] at h
  | cons x xs =>
    simp only [pickMaxVersion, Option.some.injEq] at h
    rw [← h]
    exact foldl_pickStep_mem x xs

lemma pickMaxVersion_isSome {l : List GoldRow} :
    (pickMaxVersion l).isSome = true ↔ l ≠ [] := by
  cases l <;> simp [pickMaxVersion]

@[simp] lemma pickMaxVersion_singleton (r : GoldRow) : pickMaxVersion [r] = some r := rfl

lemma pickMaxVersion_append_big {l : List GoldRow} {x : GoldRow}
    (h : ∀ y ∈ l, y.version < x.version) : pickMaxVersion (l ++ [x]) = some x := by
  cases l with
  | nil => rfl
  | cons y ys =>
    simp only [List.cons_append, pickMaxVersion, Option.some.injEq]
    rw [List.foldl_append]
    have hb := foldl_pickStep_mem y ys
    have hlt : (ys.foldl (fun b x => if b.version < x.version then x else b) y).version <
        x.version := by
      apply h
      rcases List.mem_cons.mp hb with h1 | h1
    -- the fold result is the head or a member of the tail
      · rw [h1]; exact List.mem_cons_self _ _
      · exact List.mem_cons_of_mem _ h1
    simp [List.foldl_cons, hlt]

lemma filter_user_map (st : Store) (d t : Nat) (us : List Nat) (hnd : us.Nodup) (u : Nat) :
    (us.map (fun v => mkRow st d v t)).filter (fun r => r.user_id = u) =
      if u ∈ us then [mkRow st d u t] else [] := by
  induction us with
  | nil => simp
  | cons v vs ih =>
    rcases List.nodup_cons.mp hnd with ⟨hv, hnd2⟩
    by_cases huv : v = u
    · subst huv
      simp only [List.map_cons, List.filter_cons, mkRow_user_id]
      rw [if_pos (by simp), ih hnd2, if_neg hv, if_pos (List.mem_cons_self _ _)]
    · simp only [List.map_cons, List.filter_cons, mkRow_user_id]
      rw [if_neg (by simpa using huv), ih hnd2]
      by_cases hu : u ∈ vs
      · rw [if_pos hu, if_pos (List.mem_cons_of_mem _ hu)]
      · rw [if_neg hu, if_neg (by
          intro hc
          rcases List.mem_cons.mp hc with h1 | h1
          · exact huv h1.symm
          · exact hu h1)]

lemma rowsAt_append (a b : List GoldRow) (d : Nat) :
    rowsAt (a ++ b) d = rowsAt a d ++ rowsAt b d :=
  List.filter_append _ _

lemma rowsAt_computeRows (st : Store) (d t : Nat) :
    rowsAt (computeRows st d t) d = computeRows st d t := by
  apply List.filter_eq_self.mpr
  intro r hr
  simp [computeRows_date hr]

lemma rowsAt_deleted (g : List GoldRow) (d : Nat) :
    rowsAt (g.filter (fun r => ¬ r.activity_date = d)) d = [] := by
  apply List.filter_eq_nil_iff.mpr
  intro a ha
  rcases List.mem_filter.mp ha with ⟨_, hnd⟩
  simp at hnd ⊢
  exact hnd

lemma rowsAt_runNoOpt (st : Store) (d t : Nat) :
    rowsAt (runStoreNoOpt st d t).gold_user_activity d = computeRows st d t := by
  rw [gold_runNoOpt, rowsAt_append, rowsAt_deleted, rowsAt_computeRows, List.nil_append]

lemma map_user_computeRows (st : Store) (d t : Nat) :
    (computeRows st d t).map (fun r => r.user_id) = usersList st d := by
  rw [computeRows_eq_map, List.map_map]
  have : ((fun r : GoldRow => r.user_id) ∘ fun u => mkRow st d u t) = id := by
    funext u; rfl
  rw [this, List.map_id]

lemma usersAt_computeRows (st : Store) (d t : Nat) :
    usersAt (computeRows st d t) d = usersFinset st d := by
  unfold usersAt
  rw [rowsAt_computeRows, map_user_computeRows, usersList_toFinset]

lemma filter_key_computeRows (st : Store) (d t u : Nat) :
    (computeRows st d t).filter (fun r => r.activity_date = d ∧ r.user_id = u) =
      if u ∈ usersList st d then [mkRow st d u t] else [] := by
  have hcongr : (computeRows st d t).filter (fun r => r.activity_date = d ∧ r.user_id = u) =
      (computeRows st d t).filter (fun r => r.user_id = u) := by
    apply List.filter_congr
    intro r hr
    simp [computeRows_date hr]
  rw [hcongr, computeRows_eq_map]
  exact filter_user_map st d t _ (usersList_nodup st d) u

lemma visibleRow_runNoOpt (st : Store) (d t u : Nat) :
    visibleRow (runStoreNoOpt st d t).gold_user_activity d u =
      if u ∈ usersList st d then some (mkRow st d u t) else none := by
  unfold visibleRow
  rw [gold_runNoOpt, List.filter_append]
  have h1 : (st.gold_user_activity.filter (fun r => ¬ r.activity_date = d)).filter
      (fun r => r.activity_date = d ∧ r.user_id = u) = [] := by
    apply List.filter_eq_nil_iff.mpr
    intro a ha
    rcases List.mem_filter.mp ha with ⟨_, hnd⟩
    simp at hnd ⊢
    intro had
    exact absurd had hnd
  rw [h1, List.nil_append, filter_key_computeRows]
  by_cases hu : u ∈ usersList st d
  · rw [if_pos hu, if_pos hu, pickMaxVersion_singleton]
  · rw [if_neg hu, if_neg hu]
    rfl

/-! ### The month-partition merge preserves the deduplicated read path -/

lemma visibleRow_eq_key (rows : List GoldRow) (d u : Nat) :
    visibleRow rows d u = pickMaxVersion (rows.filter (fun r => rowKey r = (d, u))) := by
  unfold visibleRow
  congr 1
  apply List.filter_congr
  intro r _
  apply decide_eq_decide.mpr
  simp [rowKey, Prod.ext_iff]

lemma mem_keysAt {rows : List GoldRow} {k : Nat × Nat} :
    k ∈ keysAt rows ↔ ∃ r ∈ rows, rowKey r = k := by
  simp [keysAt, List.mem_dedup, List.mem_map]

lemma keysAt_nodup (rows : List GoldRow) : (keysAt rows).Nodup :=
  List.nodup_dedup _

lemma chooseRow_spec {l : List GoldRow} {k : Nat × Nat} {r : GoldRow}
    (h : chooseRow l k = some r) : rowKey r = k ∧ r ∈ l := by
  have hm := pickMaxVersion_mem h
  rcases List.mem_filter.mp hm with ⟨hl, hk⟩
  exact ⟨by simpa using hk, hl⟩

lemma chooseRow_isSome_of_mem {l : List GoldRow} {k : Nat × Nat} (h : k ∈ keysAt l) :
    (chooseRow l k).isSome = true := by
  unfold chooseRow
  rw [pickMaxVersion_isSome]
  rcases mem_keysAt.mp h with ⟨r, hr, hk⟩
  exact List.ne_nil_of_mem (List.mem_filter.mpr ⟨hr, by simpa using hk⟩)

lemma filterMap_chooseRow_filter (l : List GoldRow) (k : Nat × Nat) (ks : List (Nat × Nat))
    (hnd : ks.Nodup) :
    (ks.filterMap (chooseRow l)).filter (fun r => rowKey r = k) =
      if k ∈ ks then (chooseRow l k).toList else [] := by
  induction ks with
  | nil => simp
  | cons k2 ks2 ih =>
    rcases List.nodup_cons.mp hnd with ⟨hk2, hnd2⟩
    rw [List.filterMap_cons]
    cases hc : chooseRow l k2 with
    | none =>
      simp only
      rw [ih hnd2]
      by_cases hk : k2 = k
      · subst hk
        rw [if_neg hk2, if_pos (List.mem_cons_self _ _), hc]
        rfl
      · by_cases hmem : k ∈ ks2
        · rw [if_pos hmem, if_pos (List.mem_cons_of_mem _ hmem)]
        · rw [if_neg hmem, if_neg (by
            intro hcm
            rcases List.mem_cons.mp hcm with h1 | h1
            · exact hk h1.symm
            · exact hmem h1)]
    | some r =>
      have hkey := (chooseRow_spec hc).1
      simp only
      rw [List.filter_cons]
      by_cases hk : k2 = k
      · subst hk
        rw [if_pos (by simp [hkey]), ih hnd2, if_neg hk2, if_pos (List.mem_cons_self _ _), hc]
        rfl
      · rw [if_neg (by simp [hkey]; exact hk), ih hnd2]
        by_cases hmem : k ∈ ks2
        · rw [if_pos hmem, if_pos (List.mem_cons_of_mem _ hmem)]
        · rw [if_neg hmem, if_neg (by
            intro hcm
            rcases List.mem_cons.mp hcm with h1 | h1
            · exact hk h1.symm
            · exact hmem h1)]

lemma visibleRow_optimizePartition (m : Nat) (rows : List GoldRow) (d u : Nat) :
    visibleRow (optimizePartition m rows) d u = visibleRow rows d u := by
  rw [visibleRow_eq_key, visibleRow_eq_key]
  unfold optimizePartition
  simp only
  rw [List.filter_append]
  by_cases hm : monthOf d = m
  · have h1 : (rows.filter (fun r => ¬ monthOf r.activity_date = m)).filter
        (fun r => rowKey r = (d, u)) = [] := by
      apply List.filter_eq_nil_iff.mpr
      intro a ha
      rcases List.mem_filter.mp ha with ⟨_, hnm⟩
      simp only [decide_eq_true_eq] at hnm ⊢
      intro hkey
      apply hnm
      have : a.activity_date = d := by
        have := congrArg Prod.fst hkey
        simpa [rowKey] using this
      rw [this, hm]
    rw [h1, List.nil_append]
    rw [filterMap_chooseRow_filter _ (d, u) _ (keysAt_nodup _)]
    have habs : (rows.filter (fun r => monthOf r.activity_date = m)).filter
        (fun r => rowKey r = (d, u)) = rows.filter (fun r => rowKey r = (d, u)) := by
      rw [List.filter_filter]
      apply List.filter_congr
      intro r _
      by_cases hkey : rowKey r = (d, u)
      · have hrd : r.activity_date = d := by
          have := congrArg Prod.fst hkey
          simpa [rowKey] using this
        simp [hkey, hrd, hm]
      · simp [hkey]
    by_cases hk : (d, u) ∈ keysAt (rows.filter (fun r => monthOf r.activity_date = m))
    · obtain ⟨r, hr⟩ := Option.isSome_iff_exists.mp (chooseRow_isSome_of_mem hk)
      rw [if_pos hk, hr]
      have : chooseRow (rows.filter (fun r => monthOf r.activity_date = m)) (d, u) =
          pickMaxVersion (rows.filter (fun r => rowKey r = (d, u))) := by
        unfold chooseRow
        rw [habs]
      rw [this] at hr
      rw [hr]
      rfl
    · rw [if_neg hk]
      have : rows.filter (fun r => rowKey r = (d, u)) = [] := by
        apply List.filter_eq_nil_iff.mpr
        intro a ha
        simp only [decide_eq_true_eq]
        intro hkey
        apply hk
        apply mem_keysAt.mpr
        refine ⟨a, ?_, hkey⟩
        apply List.mem_filter.mpr
        refine ⟨ha, ?_⟩
        have hrd : a.activity_date = d := by
          have := congrArg Prod.fst hkey
          simpa [rowKey] using this
        simp [hrd, hm]
      rw [this]
  · have h2 : (((keysAt (rows.filter (fun r => monthOf r.activity_date = m))).filterMap
        (chooseRow (rows.filter (fun r => monthOf r.activity_date = m)))).filter
        (fun r => rowKey r = (d, u))) = [] := by
      apply List.filter_eq_nil_iff.mpr
      intro b hb
      rcases List.mem_filterMap.mp hb with ⟨k2, _, hck⟩
      have hbp := (chooseRow_spec hck).2
      rcases List.mem_filter.mp hbp with ⟨_, hbm⟩
      simp only [decide_eq_true_eq] at hbm ⊢
      intro hkey
      have hbd : b.activity_date = d := by
        have := congrArg Prod.fst hkey
        simpa [rowKey] using this
      rw [hbd] at hbm
      exact hm hbm
    rw [h2, List.append_nil, List.filter_filter]
    congr 1
    apply List.filter_congr
    intro r _
    by_cases hkey : rowKey r = (d, u)
    · have hrd : r.activity_date = d := by
        have := congrArg Prod.fst hkey
        simpa [rowKey] using this
      simp [hkey, hrd, hm]
    · simp [hkey]

lemma visible_isSome_iff (rows : List GoldRow) (d u : Nat) :
    (visibleRow rows d u).isSome = true ↔
      ∃ r ∈ rows, r.activity_date = d ∧ r.user_id = u := by
  unfold visibleRow
  rw [pickMaxVersion_isSome]
  constructor
  · intro h
    obtain ⟨r, hr⟩ := List.exists_mem_of_ne_nil _ h
    rcases List.mem_filter.mp hr with ⟨hmem, hp⟩
    exact ⟨r, hmem, by simpa using hp⟩
  · rintro ⟨r, hmem, hd, hu⟩
    exact List.ne_nil_of_mem (List.mem_filter.mpr ⟨hmem, by simp [hd, hu]⟩)

lemma mem_usersAt (rows : List GoldRow) (d u : Nat) :
    u ∈ usersAt rows d ↔ ∃ r ∈ rows, r.activity_date = d ∧ r.user_id = u := by
  unfold usersAt rowsAt
  rw [List.mem_toFinset]
  constructor
  · intro h
    rcases List.mem_map.mp h with ⟨r, hr, rfl⟩
    rcases List.mem_filter.mp hr with ⟨hmem, hd⟩
    exact ⟨r, hmem, by simpa using hd, rfl⟩
  · rintro ⟨r, hmem, hd, hu⟩
    exact List.mem_map.mpr ⟨r, List.mem_filter.mpr ⟨hmem, by simp [hd]⟩, hu⟩

lemma usersAt_optimizePartition (m : Nat) (rows : List GoldRow) (d : Nat) :
    usersAt (optimizePartition m rows) d = usersAt rows d := by
  ext u
  rw [mem_usersAt, mem_usersAt, ← visible_isSome_iff, ← visible_isSome_iff,
    visibleRow_optimizePartition]

lemma destRowsFinal_optimizePartition (m : Nat) (rows : List GoldRow) (d : Nat) :
    destRowsFinal (optimizePartition m rows) d = destRowsFinal rows d := by
  unfold destRowsFinal
  rw [usersAt_optimizePartition]

lemma destEventsFinal_optimizePartition (m : Nat) (rows : List GoldRow) (d : Nat) :
    destEventsFinal (optimizePartition m rows) d = destEventsFinal rows d := by
  unfold destEventsFinal
  rw [usersAt_optimizePartition]
  apply Finset.sum_congr rfl
  intro u _
  rw [visibleRow_optimizePartition]

/-! ### The observable destination state after one full run -/

lemma gold_runStore_fails (st : Store) (d t : Nat) :
    (runStore st d t true).gold_user_activity = (runStoreNoOpt st d t).gold_user_activity := rfl

lemma gold_runStore_ok (st : Store) (d t : Nat) :
    (runStore st d t false).gold_user_activity =
      optimizePartition (monthOf d) (runStoreNoOpt st d t).gold_user_activity := rfl

lemma visibleRow_runStore (st : Store) (d t u : Nat) (f : Bool) :
    visibleRow (runStore st d t f).gold_user_activity d u =
      if u ∈ usersList st d then some (mkRow st d u t) else none := by
  cases f
  · rw [gold_runStore_ok, visibleRow_optimizePartition]
    exact visibleRow_runNoOpt st d t u
  · rw [gold_runStore_fails]
    exact visibleRow_runNoOpt st d t u

lemma usersAt_runNoOpt (st : Store) (d t : Nat) :
    usersAt (runStoreNoOpt st d t).gold_user_activity d = usersFinset st d := by
  unfold usersAt
  rw [rowsAt_runNoOpt, map_user_computeRows, usersList_toFinset]

lemma usersAt_runStore (st : Store) (d t : Nat) (f : Bool) :
    usersAt (runStore st d t f).gold_user_activity d = usersFinset st d := by
  cases f
  · rw [gold_runStore_ok, usersAt_optimizePartition]
    exact usersAt_runNoOpt st d t
  · rw [gold_runStore_fails]
    exact usersAt_runNoOpt st d t

lemma destRowsFinal_runStore (st : Store) (d t : Nat) (f : Bool) :
    destRowsFinal (runStore st d t f).gold_user_activity d = sourceUsers st d := by
  unfold destRowsFinal
  rw [usersAt_runStore]
  rfl

lemma sourceUsers_runStore (st : Store) (d t e : Nat) (f : Bool) :
    sourceUsers (runStore st d t f) e = sourceUsers st e :=
  sourceUsers_congr (silver_events_runStore st d t f) e

lemma validation_passed_runStore (st : Store) (d t : Nat) (f : Bool) :
    (finalValidation (runStore st d t f) d).validation_passed = true := by
  unfold finalValidation
  simp only
  rw [decide_eq_true_iff]
  rw [sourceUsers_runStore, destRowsFinal_runStore]
  rcases Nat.eq_zero_or_pos (sourceUsers st d) with h | h
  · exact Or.inl ⟨h, h⟩
  · exact Or.inr ⟨h, h⟩

lemma validate_results_runStore (st : Store) (d t : Nat) (f : Bool) :
    validate_results (runStore st d t f) d = .ok (finalValidation (runStore st d t f) d) := by
  have h := validation_passed_runStore st d t f
  simp [validate_results, h]

/-- In the embedded fault-free environment (connectivity and queries succeed;
the optimize request may still fail), every run completes successfully. -/
lemma runPipeline_eq (st : Store) (d t : Nat) (run_id : String) (pending : Nat → Nat)
    (f : Bool) :
    runPipeline st d t run_id pending f = .ok (pipelineOutcome st d t run_id pending f) := by
  unfold runPipeline pipelineOutcome
  simp only
  have h : validate_results (optimize_table (insert_aggregations
      (delete_existing_partition st d).1 d t) d f) d =
      .ok (finalValidation (runStore st d t f) d) := validate_results_runStore st d t f
  rw [h]
  rfl

/-! ### Frame: what a run does to other dates -/

lemma rowsAt_runNoOpt_other (st : Store) (d t d' : Nat) (h : d' ≠ d) :
    rowsAt (runStoreNoOpt st d t).gold_user_activity d' = rowsAt st.gold_user_activity d' := by
  rw [gold_runNoOpt, rowsAt_append]
  have h2 : rowsAt (computeRows st d t) d' = [] := by
    apply List.filter_eq_nil_iff.mpr
    intro r hr
    simp [computeRows_date hr, h.symm]
  rw [h2, List.append_nil]
  unfold rowsAt
  rw [List.filter_filter]
  apply List.filter_congr
  intro r _
  by_cases hrd : r.activity_date = d'
  · simp [hrd, h]
  · simp [hrd]

lemma visibleRow_runNoOpt_other (st : Store) (d t d' u : Nat) (h : d' ≠ d) :
    visibleRow (runStoreNoOpt st d t).gold_user_activity d' u =
      visibleRow st.gold_user_activity d' u := by
  unfold visibleRow
  rw [gold_runNoOpt, List.filter_append]
  have h2 : (computeRows st d t).filter (fun r => r.activity_date = d' ∧ r.user_id = u) = [] := by
    apply List.filter_eq_nil_iff.mpr
    intro r hr
    simp [computeRows_date hr, h.symm]
  rw [h2, List.append_nil, List.filter_filter]
  congr 1
  apply List.filter_congr
  intro r _
  by_cases hrd : r.activity_date = d'
  · simp [hrd, h]
  · simp [hrd]

lemma visibleRow_runStore_other (st : Store) (d t d' u : Nat) (f : Bool) (h : d' ≠ d) :
    visibleRow (runStore st d t f).gold_user_activity d' u =
      visibleRow st.gold_user_activity d' u := by
  cases f
  · rw [gold_runStore_ok, visibleRow_optimizePartition]
    exact visibleRow_runNoOpt_other st d t d' u h
  · rw [gold_runStore_fails]
    exact visibleRow_runNoOpt_other st d t d' u h

lemma usersAt_runStore_other (st : Store) (d t d' : Nat) (f : Bool) (h : d' ≠ d) :
    usersAt (runStore st d t f).gold_user_activity d' = usersAt st.gold_user_activity d' := by
  ext u
  rw [mem_usersAt, mem_usersAt, ← visible_isSome_iff, ← visible_isSome_iff,
    visibleRow_runStore_other st d t d' u f h]

lemma destRowsFinal_runStore_other (st : Store) (d t d' : Nat) (f : Bool) (h : d' ≠ d) :
    destRowsFinal (runStore st d t f).gold_user_activity d' =
      destRowsFinal st.gold_user_activity d' := by
  unfold destRowsFinal
  rw [usersAt_runStore_other st d t d' f h]

lemma rowsAt_runStore_other_month (st : Store) (d t d' : Nat) (f : Bool)
    (h : monthOf d' ≠ monthOf d) :
    rowsAt (runStore st d t f).gold_user_activity d' = rowsAt st.gold_user_activity d' := by
  have hdd : d' ≠ d := fun he => h (by rw [he])
  cases f
  · rw [gold_runStore_ok]
    unfold optimizePartition
    simp only
    unfold rowsAt
    rw [List.filter_append]
    have h2 : (((keysAt ((runStoreNoOpt st d t).gold_user_activity.filter
        (fun r => monthOf r.activity_date = monthOf d))).filterMap
        (chooseRow ((runStoreNoOpt st d t).gold_user_activity.filter
        (fun r => monthOf r.activity_date = monthOf d)))).filter
        (fun r => r.activity_date = d')) = [] := by
      apply List.filter_eq_nil_iff.mpr
      intro b hb
      rcases List.mem_filterMap.mp hb with ⟨k2, _, hck⟩
      have hbp := (chooseRow_spec hck).2
      rcases List.mem_filter.mp hbp with ⟨_, hbm⟩
      simp only [decide_eq_true_eq] at hbm ⊢
      intro hbd
      rw [hbd] at hbm
      exact h hbm
    rw [h2, List.append_nil, List.filter_filter]
    have h3 : (runStoreNoOpt st d t).gold_user_activity.filter
        (fun r => decide (r.activity_date = d') && decide (¬ monthOf r.activity_date = monthOf d)) =
        (runStoreNoOpt st d t).gold_user_activity.filter (fun r => r.activity_date = d') := by
      apply List.filter_congr
      intro r _
      by_cases hrd : r.activity_date = d'
      · simp [hrd, h]
      · simp [hrd]
    rw [h3]
    exact rowsAt_runNoOpt_other st d t d' hdd
  · rw [gold_runStore_fails]
    exact rowsAt_runNoOpt_other st d t d' hdd

/-! ### The bounded mutation wait -/

lemma mutationWaitGo_bounded (p : Nat → Nat) :
    ∀ fuel i, (mutationWaitGo p i fuel).polls ≤ fuel ∧ (mutationWaitGo p i fuel).sleeps ≤ fuel := by
  intro fuel
  induction fuel with
  | zero => intro i; simp [mutationWaitGo]
  | succ n ih =>
    intro i
    unfold mutationWaitGo
    by_cases h : p i = 0
    · simp [h]
    · simp [h]
      rcases ih (i + 1) with ⟨h1, h2⟩
      constructor <;> omega

lemma mutationWaitGo_early (p : Nat → Nat) :
    ∀ fuel i k, k < fuel → (∀ j, j < k → p (i + j) ≠ 0) → p (i + k) = 0 →
      mutationWaitGo p i fuel = ⟨k + 1, k, true⟩ := by
  intro fuel
  induction fuel with
  | zero => intro i k hk; omega
  | succ n ih =>
    intro i k hk hbefore hzero
    cases k with
    | zero =>
      simp only [Nat.add_zero] at hzero
      unfold mutationWaitGo
      rw [if_pos hzero]
    | succ k2 =>
      have hi : p i ≠ 0 := by
        have := hbefore 0 (Nat.succ_pos k2)
        simpa using this
      unfold mutationWaitGo
      rw [if_neg hi]
      have hrec : mutationWaitGo p (i + 1) n = ⟨k2 + 1, k2, true⟩ := by
        apply ih (i + 1) k2 (by omega)
        · intro j hj
          have := hbefore (j + 1) (by omega)
          have harith : i + (j + 1) = i + 1 + j := by omega
          rwa [harith] at this
        · have harith : i + (k2 + 1) = i + 1 + k2 := by omega
          rwa [harith] at hzero
      rw [hrec]

lemma mutationWaitGo_exhaust (p : Nat → Nat) :
    ∀ fuel i, (∀ j, j < fuel → p (i + j) ≠ 0) →
      mutationWaitGo p i fuel = ⟨fuel, fuel, false⟩ := by
  intro fuel
  induction fuel with
  | zero => intro i _; rfl
  | succ n ih =>
    intro i hall
    have hi : p i ≠ 0 := by
      have := hall 0 (Nat.succ_pos n)
      simpa using this
    unfold mutationWaitGo
    rw [if_neg hi]
    have hrec : mutationWaitGo p (i + 1) n = ⟨n, n, false⟩ := by
      apply ih (i + 1)
      intro j hj
      have := hall (j + 1) (by omega)
      have harith : i + (j + 1) = i + 1 + j := by omega
      rwa [harith] at this
    rw [hrec]

/-! ### The six category counters against the total event count -/

@[simp] lemma mkRow_page_view (st : Store) (d u t : Nat) :
    (mkRow st d u t).page_view_count =
      (joinedFor st d u).countP (fun p => p.1.event_type = "page_view") := rfl

@[simp] lemma mkRow_click (st : Store) (d u t : Nat) :
    (mkRow st d u t).click_count =
      (joinedFor st d u).countP (fun p => p.1.event_type = "click") := rfl

@[simp] lemma mkRow_purchase (st : Store) (d u t : Nat) :
    (mkRow st d u t).purchase_count =
      (joinedFor st d u).countP (fun p => p.1.event_type = "purchase") := rfl

@[simp] lemma mkRow_search (st : Store) (d u t : Nat) :
    (mkRow st d u t).search_count =
      (joinedFor st d u).countP (fun p => p.1.event_type = "search") := rfl

@[simp] lemma mkRow_add_to_cart (st : Store) (d u t : Nat) :
    (mkRow st d u t).add_to_cart_count =
      (joinedFor st d u).countP (fun p => p.1.event_type = "add_to_cart") := rfl

@[simp] lemma mkRow_login (st : Store) (d u t : Nat) :
    (mkRow st d u t).login_count =
      (joinedFor st d u).countP (fun p => p.1.event_type = "login") := rfl

lemma six_ite (s : String) :
    ((if s = "page_view" then 1 else 0) + (if s = "click" then 1 else 0) +
     (if s = "purchase" then 1 else 0) + (if s = "search" then 1 else 0) +
     (if s = "add_to_cart" then 1 else 0) + (if s = "login" then 1 else 0) : Nat) =
      if s ∈ sixTypes then 1 else 0 := by
  by_cases h1 : s = "page_view"
  · subst h1; simp [sixTypes]
  · by_cases h2 : s = "click"
    · subst h2; simp [sixTypes]
    · by_cases h3 : s = "purchase"
      · subst h3; simp [sixTypes]
      · by_cases h4 : s = "search"
        · subst h4; simp [sixTypes]
        · by_cases h5 : s = "add_to_cart"
          · subst h5; simp [sixTypes]
          · by_cases h6 : s = "login"
            · subst h6; simp [sixTypes]
            · simp [sixTypes, h1, h2, h3, h4, h5, h6]

lemma sixSum_list (ts : List String) :
    ts.countP (fun s => s = "page_view") + ts.countP (fun s => s = "click") +
    ts.countP (fun s => s = "purchase") + ts.countP (fun s => s = "search") +
    ts.countP (fun s => s = "add_to_cart") + ts.countP (fun s => s = "login") =
      ts.countP (fun s => s ∈ sixTypes) := by
  induction ts with
  | nil => simp
  | cons s ts ih =>
    simp only [List.countP_cons]
    have h6 := six_ite s
    simp only [decide_eq_true_eq] at *
    omega

lemma countP_type_map (j : List (Event × UserDim)) (q : String → Bool) :
    j.countP (fun p => q p.1.event_type) = (j.map (fun p => p.1.event_type)).countP q := by
  rw [List.countP_map]
  rfl

lemma sixCatSum_mkRow (st : Store) (d u t : Nat) :
    sixCatSum (mkRow st d u t) =
      (joinedFor st d u).countP (fun p => p.1.event_type ∈ sixTypes) := by
  unfold sixCatSum
  simp only [mkRow_page_view, mkRow_click, mkRow_purchase, mkRow_search, mkRow_add_to_cart,
    mkRow_login]
  rw [countP_type_map _ (fun s => s = "page_view"), countP_type_map _ (fun s => s = "click"),
    countP_type_map _ (fun s => s = "purchase"), countP_type_map _ (fun s => s = "search"),
    countP_type_map _ (fun s => s = "add_to_cart"), countP_type_map _ (fun s => s = "login"),
    sixSum_list, ← countP_type_map]

lemma flatMap_single {α β : Type _} (l : List α) (g : α → β) :
    (l.flatMap (fun x => [g x])) = l.map g := by
  induction l with
  | nil => rfl
  | cons x xs ih => simp [List.flatMap_cons, ih]

lemma joinedFor_of_dims_le_one (st : Store) (d u : Nat) (h : (dimRows st u).length ≤ 1) :
    ∃ dim : UserDim, joinedFor st d u = (userEvents st d u).map (fun e => (e, dim)) := by
  cases hds : dimRows st u with
  | nil =>
    refine ⟨defaultDim, ?_⟩
    unfold joinedFor
    rw [hds]
    exact flatMap_single _ _
  | cons s ss =>
    have hss : ss = [] := by
      rw [hds] at h
      simp at h
      exact h
    subst hss
    refine ⟨s, ?_⟩
    unfold joinedFor
    rw [hds]
    have : (fun e : Event => [s].map (fun s2 => (e, s2))) = fun e => [(e, s)] := by
      funext e; rfl
    rw [this]
    exact flatMap_single _ _

lemma sixCatSum_eq_events (st : Store) (d u t : Nat)
    (hdim : (dimRows st u).length ≤ 1)
    (htypes : ∀ e ∈ userEvents st d u, e.event_type ∈ sixTypes) :
    sixCatSum (mkRow st d u t) = (userEvents st d u).length := by
  rw [sixCatSum_mkRow, countP_type_map _ (fun s => s ∈ sixTypes)]
  obtain ⟨dim, hj⟩ := joinedFor_of_dims_le_one st d u hdim
  rw [hj, List.map_map]
  have hcomp : ((fun p : Event × UserDim => p.1.event_type) ∘ fun e => (e, dim)) =
      fun e : Event => e.event_type := by
    funext e; rfl
  rw [hcomp]
  have hlen : ((userEvents st d u).map (fun e => e.event_type)).countP
      (fun s => s ∈ sixTypes) = ((userEvents st d u).map (fun e => e.event_type)).length := by
    apply List.countP_eq_length.mpr
    intro s hs
    rcases List.mem_map.mp hs with ⟨e, he, rfl⟩
    simpa using htypes e he
  rw [hlen, List.length_map]

lemma event_count_eq_events (st : Store) (d u t : Nat)
    (hdim : (dimRows st u).length ≤ 1) :
    (mkRow st d u t).event_count = (userEvents st d u).length := by
  rw [mkRow_event_count]
  obtain ⟨dim, hj⟩ := joinedFor_of_dims_le_one st d u hdim
  rw [hj, List.length_map]

/-! ### The reconciliation check raises exactly on a violated invariant -/

lemma validate_results_ok_iff (st : Store) (d : Nat) :
    (validate_results st d).isOk = true ↔
      reconInvariant (sourceUsers st d) (destRowsFinal st.gold_user_activity d) := by
  unfold validate_results finalValidation
  simp only
  by_cases h : reconInvariant (sourceUsers st d) (destRowsFinal st.gold_user_activity d)
  · have hb := decide_eq_true h
    simp [hb, Except.isOk, Except.toBool, h]
  · have hb := decide_eq_false h
    simp [hb, Except.isOk, Except.toBool, h]

lemma validate_results_error_iff (st : Store) (d : Nat) :
    validate_results st d =
        .error (reconciliationFailure (sourceUsers st d) (destRowsFinal st.gold_user_activity d)) ↔
      ¬ reconInvariant (sourceUsers st d) (destRowsFinal st.gold_user_activity d) := by
  unfold validate_results finalValidation
  simp only
  by_cases h : reconInvariant (sourceUsers st d) (destRowsFinal st.gold_user_activity d)
  · simp [h]
  · simp [h]

/-! ### A failing optimize request does not change the observable outcome -/

lemma destEventsFinal_runStore_opt_irrel (st : Store) (d t : Nat) :
    destEventsFinal (runStore st d t false).gold_user_activity d =
      destEventsFinal (runStore st d t true).gold_user_activity d := by
  rw [gold_runStore_ok, gold_runStore_fails, destEventsFinal_optimizePartition]

lemma finalValidation_opt_irrel (st : Store) (d t : Nat) :
    finalValidation (runStore st d t true) d = finalValidation (runStore st d t false) d := by
  unfold finalValidation
  rw [sourceUsers_runStore st d t d true, sourceUsers_runStore st d t d false,
    destRowsFinal_runStore st d t true, destRowsFinal_runStore st d t false,
    destEventsFinal_runStore_opt_irrel]

/-! ### Enrichment defaults for users without dimension rows -/

@[simp] lemma mkRow_full_name (st : Store) (d u t : Nat) :
    (mkRow st d u t).user_full_name = (argMaxDim (joinedFor st d u)).full_name := rfl

@[simp] lemma mkRow_email (st : Store) (d u t : Nat) :
    (mkRow st d u t).user_email = (argMaxDim (joinedFor st d u)).email := rfl

lemma argMaxDim_const (j : List (Event × UserDim)) (h : ∀ p ∈ j, p.2 = defaultDim) :
    argMaxDim j = defaultDim := by
  cases j with
  | nil => rfl
  | cons p ps =>
    show ps.foldl (fun b q => if b.version < q.2.version then q.2 else b) p.2 = defaultDim
    have hp : p.2 = defaultDim := h p (List.mem_cons_self _ _)
    rw [hp]
    have hps : ∀ q ∈ ps, q.2 = defaultDim := fun q hq => h q (List.mem_cons_of_mem _ hq)
    clear hp h
    induction ps with
    | nil => rfl
    | cons q qs ih =>
      rw [List.foldl_cons]
      have hq : q.2 = defaultDim := hps q (List.mem_cons_self _ _)
      rw [hq, if_neg (lt_irrefl _)]
      exact ih (fun q2 hq2 => hps q2 (List.mem_cons_of_mem _ hq2))

lemma joinedFor_all_default (st : Store) (d u : Nat) (h : dimRows st u = []) :
    ∀ p ∈ joinedFor st d u, p.2 = defaultDim := by
  intro p hp
  unfold joinedFor at hp
  rw [h] at hp
  rcases List.mem_flatMap.mp hp with ⟨e, _, hpe⟩
  simp at hpe
  rw [hpe]

lemma catCounts_mkRow_time (st : Store) (d u t1 t2 : Nat) :
    catCounts (mkRow st d u t1) = catCounts (mkRow st d u t2) := rfl

/-! ### Claim theorems -/

/-- C1: Idempotent recompute. Running the pipeline twice in succession for the
same partition date against unchanged source data yields the same observable
destination state as a single run: both runs succeed, and the second run's
deduplicated destination row count, per-user per-category totals, and
reconciliation verdict coincide with the first run's, because the delete phase
removes every prior generation of rows for the date before the insert phase
writes the new one. -/
theorem claim_C1_idempotent_recompute (st : Store) (d t1 t2 : Nat) (rid1 rid2 : String)
    (p1 p2 : Nat → Nat) (f1 f2 : Bool) :
    ∃ o1 o2 : PipelineOutcome,
      runPipeline st d t1 rid1 p1 f1 = .ok o1 ∧
      runPipeline o1.store d t2 rid2 p2 f2 = .ok o2 ∧
      destRowsFinal o2.store.gold_user_activity d = destRowsFinal o1.store.gold_user_activity d ∧
      (∀ u, perUserCatTotals o2.store.gold_user_activity d u =
        perUserCatTotals o1.store.gold_user_activity d u) ∧
      o2.validation.validation_passed = o1.validation.validation_passed := by
  refine ⟨pipelineOutcome st d t1 rid1 p1 f1,
    pipelineOutcome (runStore st d t1 f1) d t2 rid2 p2 f2,
    runPipeline_eq st d t1 rid1 p1 f1,
    runPipeline_eq (runStore st d t1 f1) d t2 rid2 p2 f2, ?_, ?_, ?_⟩
  · show destRowsFinal (runStore (runStore st d t1 f1) d t2 f2).gold_user_activity d =
      destRowsFinal (runStore st d t1 f1).gold_user_activity d
    rw [destRowsFinal_runStore, destRowsFinal_runStore,
      sourceUsers_congr (silver_events_runStore st d t1 f1) d]
  · intro u
    show perUserCatTotals (runStore (runStore st d t1 f1) d t2 f2).gold_user_activity d u =
      perUserCatTotals (runStore st d t1 f1).gold_user_activity d u
    unfold perUserCatTotals
    rw [visibleRow_runStore, visibleRow_runStore,
      usersList_congr (silver_events_runStore st d t1 f1) d]
    by_cases hu : u ∈ usersList st d
    · rw [if_pos hu, if_pos hu]
      simp only [Option.map_some']
      rw [mkRow_congr (silver_events_runStore st d t1 f1) (silver_users_runStore st d t1 f1),
        catCounts_mkRow_time st d u t2 t1]
    · rw [if_neg hu, if_neg hu]
  · show (finalValidation (runStore (runStore st d t1 f1) d t2 f2) d).validation_passed =
      (finalValidation (runStore st d t1 f1) d).validation_passed
    rw [validation_passed_runStore, validation_passed_runStore]

/-- C2: Reconciliation raises-iff. The validation step succeeds exactly when
the invariant `(source = 0 AND dest = 0) OR (source > 0 AND dest > 0)` holds
over the recomputed source distinct-user count and the deduplicated
destination row count; an invariant violation (for example a partial insert)
yields the reconciliation failure rather than success; and after every
successful pipeline run the invariant holds on the resulting store. -/
theorem claim_C2_reconciliation_raises_iff (st : Store) (d : Nat) :
    ((validate_results st d).isOk = true ↔
      reconInvariant (sourceUsers st d) (destRowsFinal st.gold_user_activity d)) ∧
    (validate_results st d =
        .error (reconciliationFailure (sourceUsers st d)
          (destRowsFinal st.gold_user_activity d)) ↔
      ¬ reconInvariant (sourceUsers st d) (destRowsFinal st.gold_user_activity d)) ∧
    (∀ t rid pending f, ∃ o : PipelineOutcome,
      runPipeline st d t rid pending f = .ok o ∧
      reconInvariant (sourceUsers o.store d) (destRowsFinal o.store.gold_user_activity d)) := by
  refine ⟨validate_results_ok_iff st d, validate_results_error_iff st d, ?_⟩
  intro t rid pending f
  refine ⟨pipelineOutcome st d t rid pending f, runPipeline_eq st d t rid pending f, ?_⟩
  show reconInvariant (sourceUsers (runStore st d t f) d)
    (destRowsFinal (runStore st d t f).gold_user_activity d)
  rw [sourceUsers_runStore, destRowsFinal_runStore]
  rcases Nat.eq_zero_or_pos (sourceUsers st d) with h | h
  · exact Or.inl ⟨h, h⟩
  · exact Or.inr ⟨h, h⟩

/-- C3 counterexample: the claim "the sum of the six per-category counts
equals that user's total event count for the date" fails on a store whose
single event carries the type `logout`, outside the six broken-out
categories: the run leaves exactly one destination row for the one distinct
user, but the six counters sum to 0 while the user generated 1 event. -/
theorem claim_C3_counterexample :
    destRowsFinal (runStore exStoreUnknownType 0 100 false).gold_user_activity 0 = 1 ∧
    visibleRow (runStore exStoreUnknownType 0 100 false).gold_user_activity 0 1 =
      some (mkRow exStoreUnknownType 0 1 100) ∧
    (userEvents exStoreUnknownType 0 1).length = 1 ∧
    sixCatSum (mkRow exStoreUnknownType 0 1 100) = 0 ∧
    sixCatSum (mkRow exStoreUnknownType 0 1 100) ≠ (userEvents exStoreUnknownType 0 1).length := by
  refine ⟨?_, ?_, ?_, ?_, ?_⟩ <;> decide

/-- C3 amended: for a partition date with N distinct users each generating at
least one event, a successful run leaves exactly N deduplicated destination
rows (one per user); for every user the sum of the six per-category counts
equals the number of joined event records whose type is among the six
categories, and it equals the user's total event count for the date provided
every one of the user's events has one of the six types and the user has at
most one dimension row (the LEFT JOIN replicates events across multiple
dimension versions). -/
theorem claim_C3_no_loss_aggregation_amended (st : Store) (d t : Nat) (f : Bool) (u : Nat)
    (hu : u ∈ usersList st d)
    (hdim : (dimRows st u).length ≤ 1)
    (htypes : ∀ e ∈ userEvents st d u, e.event_type ∈ sixTypes) :
    destRowsFinal (runStore st d t f).gold_user_activity d = sourceUsers st d ∧
    visibleRow (runStore st d t f).gold_user_activity d u = some (mkRow st d u t) ∧
    sixCatSum (mkRow st d u t) =
      (joinedFor st d u).countP (fun p => p.1.event_type ∈ sixTypes) ∧
    sixCatSum (mkRow st d u t) = (userEvents st d u).length ∧
    (mkRow st d u t).event_count = (userEvents st d u).length := by
  refine ⟨destRowsFinal_runStore st d t f, ?_, sixCatSum_mkRow st d u t,
    sixCatSum_eq_events st d u t hdim htypes, event_count_eq_events st d u t hdim⟩
  rw [visibleRow_runStore, if_pos hu]

/-- C3 witness: the amended statement instantiated at a store with one user,
three events of broken-out types, and a single dimension row. -/
theorem claim_C3_no_loss_aggregation_amended_witness :
    destRowsFinal (runStore exStoreThreeEvents 0 9 false).gold_user_activity 0 =
      sourceUsers exStoreThreeEvents 0 ∧
    visibleRow (runStore exStoreThreeEvents 0 9 false).gold_user_activity 0 1 =
      some (mkRow exStoreThreeEvents 0 1 9) ∧
    sixCatSum (mkRow exStoreThreeEvents 0 1 9) =
      (joinedFor exStoreThreeEvents 0 1).countP (fun p => p.1.event_type ∈ sixTypes) ∧
    sixCatSum (mkRow exStoreThreeEvents 0 1 9) = (userEvents exStoreThreeEvents 0 1).length ∧
    (mkRow exStoreThreeEvents 0 1 9).event_count = (userEvents exStoreThreeEvents 0 1).length :=
  claim_C3_no_loss_aggregation_amended exStoreThreeEvents 0 9 false 1
    (by decide) (by decide) (by decide)

/-- C4 counterexample: a reconciliation mismatch is raised as the very same
failure kind (AirflowException) as connectivity and query failures - the
values differ only in their message strings - refuting the claim that a
caller can tell them apart without inspecting the message text. -/
theorem claim_C4_counterexample :
    (reconciliationFailure 5 0).kind = (queryFailure ("boom")).kind ∧
    (reconciliationFailure 5 0).kind = (connectionFailure ("down")).kind ∧
    reconciliationFailure 5 0 ≠ queryFailure ("boom") ∧
    reconciliationFailure 5 0 ≠ connectionFailure ("down") := by
  refine ⟨rfl, rfl, ?_, ?_⟩ <;> decide

/-- C4 amended: every failure the pipeline raises - connection errors, query
errors, and the reconciliation mismatch - carries the single exception kind
AirflowException, so no function of the kind alone can separate a
reconciliation mismatch from an infrastructure failure; distinguishing them
requires the message text. -/
theorem claim_C4_failure_kinds_amended (s r : Nat) (m : String) (g : FailureKind → Bool) :
    (reconciliationFailure s r).kind = .airflowException ∧
    (queryFailure m).kind = .airflowException ∧
    (connectionFailure m).kind = .airflowException ∧
    g (reconciliationFailure s r).kind = g (queryFailure m).kind ∧
    g (reconciliationFailure s r).kind = g (connectionFailure m).kind :=
  ⟨rfl, rfl, rfl, rfl, rfl⟩

/-- C5: Bounded advisory wait. The wait loop after the partition delete polls
the mutation-status surface at most 30 times (sleeping one second between
busy polls), stops as soon as a poll reports no pending mutations, reports
thirty fruitless polls when the budget is exhausted - and in every case the
pipeline still completes successfully with the same resulting store, so
exhausting the budget is not a pipeline failure. -/
theorem claim_C5_bounded_advisory_wait (pending : Nat → Nat) (st : Store) (d t : Nat)
    (rid : String) (f : Bool) :
    (mutationWait pending).polls ≤ 30 ∧ (mutationWait pending).sleeps ≤ 30 ∧
    (∀ k, k < 30 → (∀ j, j < k → pending j ≠ 0) → pending k = 0 →
      mutationWait pending = ⟨k + 1, k, true⟩) ∧
    ((∀ j, j < 30 → pending j ≠ 0) → mutationWait pending = ⟨30, 30, false⟩) ∧
    (∃ o : PipelineOutcome, runPipeline st d t rid pending f = .ok o ∧
      o.store = runStore st d t f) := by
  refine ⟨(mutationWaitGo_bounded pending 30 0).1, (mutationWaitGo_bounded pending 30 0).2,
    ?_, ?_, pipelineOutcome st d t rid pending f, runPipeline_eq st d t rid pending f, rfl⟩
  · intro k hk hb hz
    apply mutationWaitGo_early pending 30 0 k hk
    · intro j hj
      simpa using hb j hj
    · simpa using hz
  · intro hall
    apply mutationWaitGo_exhaust pending 30 0
    intro j hj
    simpa using hall j hj

/-- C5 witness: the wait theorem instantiated at a sequence that drains after
two busy polls (three polls, two sleeps, completed) and at a sequence that
never drains (thirty polls, not completed, run still succeeds). -/
theorem claim_C5_bounded_advisory_wait_witness :
    (mutationWait exPending).polls ≤ 30 ∧
    mutationWait exPending = ⟨3, 2, true⟩ ∧
    mutationWait exPendingStuck = ⟨30, 30, false⟩ ∧
    (∃ o : PipelineOutcome,
      runPipeline exStoreNoDim 0 5 ("r1") exPendingStuck false = .ok o ∧
      o.store = runStore exStoreNoDim 0 5 false) :=
  ⟨(claim_C5_bounded_advisory_wait exPending exStoreNoDim 0 5 ("r1") false).1,
   (claim_C5_bounded_advisory_wait exPending exStoreNoDim 0 5 ("r1") false).2.2.1 2
     (by decide) (by decide) (by decide),
   (claim_C5_bounded_advisory_wait exPendingStuck exStoreNoDim 0 5 ("r1") false).2.2.2.1
     (by decide),
   (claim_C5_bounded_advisory_wait exPendingStuck exStoreNoDim 0 5 ("r1") false).2.2.2.2⟩

/-- C6: Maintenance non-fatality. When the best-effort post-insert compaction
request fails, the run still completes successfully with a passing
reconciliation verdict, the report is produced and is identical to the one of
a run whose compaction succeeded, and the deduplicated destination state of
the partition is unaffected by the failure. -/
theorem claim_C6_maintenance_non_fatality (st : Store) (d t : Nat) (rid : String)
    (p : Nat → Nat) :
    ∃ o oOk : PipelineOutcome,
      runPipeline st d t rid p true = .ok o ∧
      runPipeline st d t rid p false = .ok oOk ∧
      o.validation.validation_passed = true ∧
      o.report = oOk.report ∧
      destRowsFinal o.store.gold_user_activity d = destRowsFinal oOk.store.gold_user_activity d ∧
      (∀ u, visibleRow o.store.gold_user_activity d u =
        visibleRow oOk.store.gold_user_activity d u) := by
  refine ⟨pipelineOutcome st d t rid p true, pipelineOutcome st d t rid p false,
    runPipeline_eq st d t rid p true, runPipeline_eq st d t rid p false,
    validation_passed_runStore st d t true, ?_, ?_, ?_⟩
  · show generate_report (toString d) rid _ = generate_report (toString d) rid _
    rw [finalValidation_opt_irrel st d t]
  · show destRowsFinal (runStore st d t true).gold_user_activity d =
      destRowsFinal (runStore st d t false).gold_user_activity d
    rw [destRowsFinal_runStore, destRowsFinal_runStore]
  · intro u
    show visibleRow (runStore st d t true).gold_user_activity d u =
      visibleRow (runStore st d t false).gold_user_activity d u
    rw [visibleRow_runStore, visibleRow_runStore]

/-- C7 counterexample: the post-insert compaction is scoped to the calendar
month partition, not to the run's date: running the pipeline for day 1
(month 197001) collapses the two physical versions of a day-0 row of the same
month down to one, so a mutation of the run touched another date's rows. -/
theorem claim_C7_counterexample :
    monthOf 0 = monthOf 1 ∧
    (rowsAt exStoreTwoDates.gold_user_activity 0).length = 2 ∧
    (rowsAt (runStore exStoreTwoDates 1 100 false).gold_user_activity 0).length = 1 ∧
    rowsAt (runStore exStoreTwoDates 1 100 false).gold_user_activity 0 ≠
      rowsAt exStoreTwoDates.gold_user_activity 0 := by
  refine ⟨?_, ?_, ?_, ?_⟩ <;> decide

/-- C7 amended: the delete and the insert of a run are scoped to the run's
partition date and leave every other date's physical rows unchanged; the
best-effort compaction is scoped to the run's calendar month and only merges
duplicate row versions there, so for every other date the physical rows of
other months are unchanged and the deduplicated read state (visible rows and
deduplicated row count) is preserved - hence runs for different dates do not
affect each other's logically visible partitions. -/
theorem claim_C7_partition_frame_amended (st : Store) (d t d' u : Nat) (f : Bool)
    (h : d' ≠ d) :
    rowsAt (runStoreNoOpt st d t).gold_user_activity d' = rowsAt st.gold_user_activity d' ∧
    (monthOf d' ≠ monthOf d →
      rowsAt (runStore st d t f).gold_user_activity d' = rowsAt st.gold_user_activity d') ∧
    visibleRow (runStore st d t f).gold_user_activity d' u =
      visibleRow st.gold_user_activity d' u ∧
    destRowsFinal (runStore st d t f).gold_user_activity d' =
      destRowsFinal st.gold_user_activity d' :=
  ⟨rowsAt_runNoOpt_other st d t d' h,
   fun hm => rowsAt_runStore_other_month st d t d' f hm,
   visibleRow_runStore_other st d t d' u f h,
   destRowsFinal_runStore_other st d t d' f h⟩

/-- C7 witness: the frame statement instantiated at a run for day 40
(month 197002) over a store holding day-0 rows (month 197001). -/
theorem claim_C7_partition_frame_amended_witness :
    rowsAt (runStoreNoOpt exStoreTwoDates 40 100).gold_user_activity 0 =
      rowsAt exStoreTwoDates.gold_user_activity 0 ∧
    rowsAt (runStore exStoreTwoDates 40 100 false).gold_user_activity 0 =
      rowsAt exStoreTwoDates.gold_user_activity 0 ∧
    visibleRow (runStore exStoreTwoDates 40 100 false).gold_user_activity 0 1 =
      visibleRow exStoreTwoDates.gold_user_activity 0 1 ∧
    destRowsFinal (runStore exStoreTwoDates 40 100 false).gold_user_activity 0 =
      destRowsFinal exStoreTwoDates.gold_user_activity 0 := by
  have h := claim_C7_partition_frame_amended exStoreTwoDates 40 100 0 1 false (by decide)
  exact ⟨h.1, h.2.1 (by decide), h.2.2.1, h.2.2.2⟩

/-- C8 counterexample: with every upstream record missing, the report is still
produced, but the missing deleted-rows record does not render as a
"not available" marker: `pull(...) or 0` turns its absence into the literal
`0`, indistinguishable from a real zero-row cleanup. -/
theorem claim_C8_counterexample :
    ("  - Rows Deleted: 0") ∈ reportLines ("2024-01-01") ("run1") exCtxNone ∧
    ("  - Rows Deleted: N/A") ∉ reportLines ("2024-01-01") ("run1") exCtxNone ∧
    ("not available") ∉ reportLines ("2024-01-01") ("run1") exCtxNone ∧
    exCtxNone.deleted_rows = none := by
  refine ⟨?_, ?_, ?_, rfl⟩ <;> decide

/-- C8 amended: the report compiler is total - for every combination of
present and absent upstream records it produces the full 24-line report - and
a missing source-validation, aggregation, or final-validation record renders
as an explicit N/A marker, while a missing deleted-rows record renders as the
default `0` rather than a marker. -/
theorem claim_C8_report_totality_amended (ed rid : String) (ctx : RunContext) :
    generate_report ed rid ctx = String.intercalate ("\n") (reportLines ed rid ctx) ∧
    (reportLines ed rid ctx).length = 24 ∧
    (ctx.validation_result = none → ("  - Events Found: N/A") ∈ reportLines ed rid ctx) ∧
    (ctx.aggregation_result = none → ("  - Rows Inserted: N/A") ∈ reportLines ed rid ctx) ∧
    (ctx.final_validation = none →
      ("  - Validation Passed: N/A") ∈ reportLines ed rid ctx) ∧
    (ctx.deleted_rows = none → ("  - Rows Deleted: 0") ∈ reportLines ed rid ctx) := by
  refine ⟨rfl, rfl, ?_, ?_, ?_, ?_⟩
  · intro h
    have hx : ("  - Events Found: " ++
        natField (Option.map (fun v => v.event_count) ctx.validation_result)) =
        ("  - Events Found: N/A") := by
      rw [h]
      decide
    rw [← hx]
    simp [reportLines]
  · intro h
    have hx : ("  - Rows Inserted: " ++
        natField (Option.map (fun a => a.rows_inserted) ctx.aggregation_result)) =
        ("  - Rows Inserted: N/A") := by
      rw [h]
      decide
    rw [← hx]
    simp [reportLines]
  · intro h
    have hx : ("  - Validation Passed: " ++
        (match ctx.final_validation with
         | some fv => pyBool fv.validation_passed
         | none => "N/A")) = ("  - Validation Passed: N/A") := by
      rw [h]
      decide
    rw [← hx]
    simp [reportLines]
  · intro h
    have hx : ("  - Rows Deleted: " ++ toString (ctx.deleted_rows.getD 0)) =
        ("  - Rows Deleted: 0") := by
      rw [h]
      decide
    rw [← hx]
    simp [reportLines]

/-- C8 witness: the amended statement instantiated at the all-missing run
context. -/
theorem claim_C8_report_totality_amended_witness :
    generate_report ("2024-01-01") ("run1") exCtxNone =
      String.intercalate ("\n") (reportLines ("2024-01-01") ("run1") exCtxNone) ∧
    (reportLines ("2024-01-01") ("run1") exCtxNone).length = 24 ∧
    ("  - Events Found: N/A") ∈ reportLines ("2024-01-01") ("run1") exCtxNone ∧
    ("  - Rows Inserted: N/A") ∈ reportLines ("2024-01-01") ("run1") exCtxNone ∧
    ("  - Validation Passed: N/A") ∈ reportLines ("2024-01-01") ("run1") exCtxNone ∧
    ("  - Rows Deleted: 0") ∈ reportLines ("2024-01-01") ("run1") exCtxNone := by
  have h := claim_C8_report_totality_amended ("2024-01-01") ("run1") exCtxNone
  exact ⟨h.1, h.2.1, h.2.2.1 rfl, h.2.2.2.1 rfl, h.2.2.2.2.1 rfl, h.2.2.2.2.2 rfl⟩

/-- C9: Version-stamp out-ranking. Every row written by the compute step
carries a version stamp equal to the run's computation timestamp; when a
recompute happens at a strictly later timestamp, its rows' stamps strictly
exceed the stamp of any row that survived an incomplete prior delete, and the
deduplicated read path resolves each user's key to the new generation's row
even in the presence of such survivors. -/
theorem claim_C9_version_stamp_outranking (stPrev st : Store) (d t1 t2 : Nat)
    (survivors : List GoldRow)
    (hlt : t1 < t2) (hsub : ∀ r ∈ survivors, r ∈ computeRows stPrev d t1) :
    (∀ r ∈ computeRows st d t2, r.version = t2 ∧ r.computed_at = t2) ∧
    (∀ r1 ∈ survivors, ∀ r2 ∈ computeRows st d t2, r1.version < r2.version) ∧
    (∀ u ∈ usersList st d,
      visibleRow (survivors ++ computeRows st d t2) d u = some (mkRow st d u t2)) := by
  have hver : ∀ r ∈ survivors, r.version = t1 := by
    intro r hr
    rcases mem_computeRows.mp (hsub r hr) with ⟨v, _, rfl⟩
    simp
  refine ⟨?_, ?_, ?_⟩
  · intro r hr
    rcases mem_computeRows.mp hr with ⟨v, _, rfl⟩
    simp
  · intro r1 h1 r2 h2
    rcases mem_computeRows.mp h2 with ⟨v, _, rfl⟩
    rw [hver r1 h1, mkRow_version]
    exact hlt
  · intro u hu
    unfold visibleRow
    rw [List.filter_append, filter_key_computeRows, if_pos hu]
    apply pickMaxVersion_append_big
    intro y hy
    rcases List.mem_filter.mp hy with ⟨hmem, _⟩
    rw [hver y hmem, mkRow_version]
    exact hlt

/-- C9 witness: the out-ranking statement instantiated with the generation of
timestamp 5 surviving in full next to the fresh generation of timestamp 9. -/
theorem claim_C9_version_stamp_outranking_witness :
    (mkRow exStoreNoDim 0 1 9).version = 9 ∧
    (mkRow exStoreNoDim 0 1 9).computed_at = 9 ∧
    visibleRow (computeRows exStoreNoDim 0 5 ++ computeRows exStoreNoDim 0 9) 0 1 =
      some (mkRow exStoreNoDim 0 1 9) := by
  have h := claim_C9_version_stamp_outranking exStoreNoDim exStoreNoDim 0 5 9
    (computeRows exStoreNoDim 0 5) (by decide) (fun r hr => hr)
  refine ⟨?_, ?_, h.2.2 1 (by decide)⟩
  · exact (h.1 (mkRow exStoreNoDim 0 1 9) (by decide)).1
  · exact (h.1 (mkRow exStoreNoDim 0 1 9) (by decide)).2

/-- C10: Missing-dimension enrichment default. A user appearing in the date's
events but having no row in the user-dimension snapshot still receives an
aggregate row from the compute step, with the denormalized display attributes
defaulted to the empty string. -/
theorem claim_C10_missing_dimension_default (st : Store) (d t u : Nat)
    (hu : u ∈ usersList st d) (hdim : dimRows st u = []) :
    ∃ r : GoldRow, r ∈ computeRows st d t ∧ r.user_id = u ∧
      r.user_full_name = "" ∧ r.user_email = "" := by
  refine ⟨mkRow st d u t, mem_computeRows.mpr ⟨u, hu, rfl⟩, rfl, ?_, ?_⟩
  · rw [mkRow_full_name, argMaxDim_const _ (joinedFor_all_default st d u hdim)]
    rfl
  · rw [mkRow_email, argMaxDim_const _ (joinedFor_all_default st d u hdim)]
    rfl

/-- C10 witness: the default-attributes statement instantiated at a store
whose single user has events but no dimension row. -/
theorem claim_C10_missing_dimension_default_witness :
    ∃ r : GoldRow, r ∈ computeRows exStoreNoDim 0 7 ∧ r.user_id = 1 ∧
      r.user_full_name = "" ∧ r.user_email = "" :=
  claim_C10_missing_dimension_default exStoreNoDim 0 7 1 (by decide) (by decide)

end GoldPipeline
